import Mathlib

/-!
Verification of the FT-DMRG driver (ftdmrg.py).

Shallow embedding of the driver class FTDMRG: its in-memory and file-based
Hamiltonian initialization, the global-library call sequences made by the
constructor, the MPS generation / imaginary-time-evolution / 1-RDM methods,
and the destructor.  Machine reals are modelled as rationals; calls into the
external block2 library are modelled either as explicit state updates (records
holding exactly the data the driver passes) or as events in a call trace.
-/

namespace Ftdmrg

/-- A spin-adapted (SU2) quantum number SpinLabel(n, twos, pg):
particle number, doubled spin, point-group irrep. -/
structure QN where
  n : Nat
  twos : Nat
  pg : Nat
deriving DecidableEq, Repr

/-- The contents of an integral store (a block2 FCIDUMP object) once populated,
either by reading a file or by initialize_su2.  mh1e is the packed
lower-triangular one-electron array, mg2e the flattened two-electron array. -/
structure FCIDUMPData where
  n_sites : Nat
  n_elec : Nat
  twos : Nat
  isym : Nat
  orb_sym : List Nat
  e_core : ℚ
  mh1e : List ℚ
  mg2e : List ℚ
deriving DecidableEq, Repr

/-- The lifecycle of the driver field self.fcidump: Python None, freshly
constructed by FCIDUMP() but not yet populated, or populated by read /
initialize_su2. -/
inductive FcidumpState where
  | pyNone
  | fresh
  | populated (d : FCIDUMPData)
deriving DecidableEq, Repr

/-- The data the driver hands to HamiltonianQC (ftdmrg.py lines 68-69 and
117-118) together with the chemical potential field hamil.mu that the
evolution and 1-RDM methods mutate.  The source spells vacuum as vaccum. -/
structure HamilData where
  vaccum : QN
  target : QN
  n_physical_sites : Nat
  orb_sym : List Nat
  mu : ℚ
deriving DecidableEq, Repr

/-- The mutable attributes of an FTDMRG instance that the claims are about. -/
structure DriverState where
  fcidump : FcidumpState
  hamil : Option HamilData
  orb_sym : Option (List Nat)
  n_physical_sites : Option Nat
  n_sites : Option Nat
  verbose : Nat
deriving DecidableEq, Repr

/-- The state of self after FTDMRG.__init__ (lines 43-52): fcidump and hamil
are both None. -/
def freshDriver : DriverState :=
  { fcidump := FcidumpState.pyNone, hamil := none, orb_sym := none,
    n_physical_sites := none, n_sites := none, verbose := 2 }

/-- The loop counter k of the packing loop after finishing rows 0..i-1:
row i contributes i+1 entries (lines 79-84). -/
def T : Nat → Nat
  | 0 => 0
  | n + 1 => T n + (n + 1)

/-- The value of the loop counter k when the packing loop reaches the
lower-triangular position (i, j), j ≤ i. -/
def ltIndex (i j : Nat) : Nat := T i + j

/-- The index pairs (i, j), j in range(i+1), i in range(n), in the order the
nested packing loop of init_hamiltonian visits them (lines 80-81). -/
def ltPairs : Nat → List (Nat × Nat)
  | 0 => []
  | n + 1 => ltPairs n ++ (List.range (n + 1)).map (fun j => (n, j))

/-- Python error raised by the statement assert self.fcidump is None. -/
def fcidumpAssertMsg : String := "AssertionError: self.fcidump is None"

/-- Python error raised by the statement assert pg in [d2h, c1]. -/
def pgAssertMsg : String := "AssertionError: pg not in d2h, c1"

/-- Python error raised by assert abs(h1e[i, j] - h1e[j, i]) < tol. -/
def symAssertMsg : String := "AssertionError: h1e asymmetric beyond tol"

/-- One iteration of the packing loop body (lines 82-83): assert symmetry of
h1e within tol at (i, j), then store h1e[i, j]. -/
def packStep (h1e : Nat → Nat → ℚ) (tol : ℚ) (p : Nat × Nat) : Except String ℚ :=
  if |h1e p.1 p.2 - h1e p.2 p.1| < tol then Except.ok (h1e p.1 p.2)
  else Except.error symAssertMsg

/-- Run a fallible loop body over a list in order, stopping at the first
raised error, collecting the produced values. -/
def mapExcept {α β : Type} (f : α → Except String β) : List α → Except String (List β)
  | [] => Except.ok []
  | x :: xs =>
    match f x with
    | Except.error e => Except.error e
    | Except.ok y =>
      match mapExcept f xs with
      | Except.error e => Except.error e
      | Except.ok ys => Except.ok (y :: ys)

/-- The packing loop of init_hamiltonian (lines 78-84): visit the
lower-triangular pairs in order, stopping at the first assertion failure. -/
def packH1e (n : Nat) (h1e : Nat → Nat → ℚ) (tol : ℚ) : Except String (List ℚ) :=
  mapExcept (packStep h1e tol) (ltPairs n)

/-- The sub-tolerance zeroing mh1e[np.abs(mh1e) < tol] = 0.0 (lines 86-87),
applied elementwise. -/
def zeroSmall (tol : ℚ) (l : List ℚ) : List ℚ :=
  l.map (fun x => if |x| < tol then 0 else x)

/-- The FCIDUMP contents produced by fcidump.initialize_su2 on line 88-89:
note n_elec is n_sites * 2 computed on line 76, not a caller argument. -/
def builtFcidump (n_sites twos isym : Nat) (e_core : ℚ) (mh1e mg2e : List ℚ) :
    FCIDUMPData :=
  { n_sites := n_sites, n_elec := n_sites * 2, twos := twos, isym := isym,
    orb_sym := [], e_core := e_core, mh1e := mh1e, mg2e := mg2e }

/-- The HamiltonianQC arguments built on lines 112-118 (and 62-69 for the
file-based variant): vaccum = SpinLabel(0), target = SpinLabel(n_sites * 2,
twos, PointGroup.swap_d2h(isym)).  swap stands for the external
PointGroup.swap_d2h map; mu starts at 0. -/
def builtHamil (swap : Nat → Nat) (n_sites twos isym : Nat) (orb_sym : List Nat) :
    HamilData :=
  { vaccum := { n := 0, twos := 0, pg := 0 },
    target := { n := n_sites * 2, twos := twos, pg := swap isym },
    n_physical_sites := n_sites, orb_sym := orb_sym.map swap, mu := 0 }

/-- Shallow embedding of FTDMRG.init_hamiltonian (lines 73-121), in the SU2
configuration of the module (SpinLabel = SU2, line 21), where h1e is a single
matrix rather than a tuple.  g2e is modelled by its row-major flattening.
Returns the outcome of the call together with the state of self afterwards:
Python mutates self in place, so updates made before a failing assert stay.
Order of the source: assert self.fcidump is None (74); self.fcidump =
FCIDUMP() (75); the packing loop with its symmetry asserts (78-84); the
sub-tolerance zeroing (85-87); initialize_su2 (88-89); self.orb_sym (110);
target and self.hamil (112-118); assert pg (121). -/
def init_hamiltonian (swap : Nat → Nat) (pg : String) (n_sites twos isym : Nat)
    (orb_sym : List Nat) (e_core : ℚ) (h1e : Nat → Nat → ℚ) (g2e : List ℚ)
    (tol : ℚ) (s : DriverState) : Except String Unit × DriverState :=
  match s.fcidump with
  | FcidumpState.pyNone =>
    match packH1e n_sites h1e tol with
    | Except.error e => (Except.error e, { s with fcidump := FcidumpState.fresh })
    | Except.ok mh1e0 =>
      (if pg = "d2h" ∨ pg = "c1" then Except.ok () else Except.error pgAssertMsg,
       { s with
         fcidump := FcidumpState.populated (builtFcidump n_sites twos isym e_core
           (zeroSmall tol mh1e0) (zeroSmall tol g2e)),
         orb_sym := some (orb_sym.map swap),
         n_physical_sites := some n_sites,
         n_sites := some (n_sites * 2),
         hamil := some (builtHamil swap n_sites twos isym orb_sym) })
  | _ => (Except.error fcidumpAssertMsg, s)

/-- Shallow embedding of FTDMRG.init_hamiltonian_fcidump (lines 54-71).
file stands for the parsed contents of the integral file read on line 57.
Order of the source: assert self.fcidump is None (55); FCIDUMP() and read
(56-57); self.orb_sym (58-59); n_elec = n_sites * 2 (60); target (62-64);
self.hamil (68-69); assert pg (71). -/
def init_hamiltonian_fcidump (swap : Nat → Nat) (pg : String) (file : FCIDUMPData)
    (s : DriverState) : Except String Unit × DriverState :=
  match s.fcidump with
  | FcidumpState.pyNone =>
    (if pg = "d2h" ∨ pg = "c1" then Except.ok () else Except.error pgAssertMsg,
     { s with
       fcidump := FcidumpState.populated file,
       orb_sym := some (file.orb_sym.map swap),
       n_physical_sites := some file.n_sites,
       n_sites := some (file.n_sites * 2),
       hamil := some (builtHamil swap file.n_sites file.twos file.isym file.orb_sym) })
  | _ => (Except.error fcidumpAssertMsg, s)

/-- The integral store held in a driver state, when populated. -/
def storedFcidump (s : DriverState) : Option FCIDUMPData :=
  match s.fcidump with
  | FcidumpState.populated d => some d
  | _ => none

/-- The calls the driver makes into the external block2 library that the
claims are about, recorded as trace events. -/
inductive Event where
  | randSeed (n : Nat)
  | initMemory (isize dsize : Int)
  | setMklThreads (n : Nat)
  | releaseMemory
  | setTag (tag : String)
  | loadMutable
  | loadData
  | saveMutable
  | saveData
  | setThermalLimit
  | fillThermalLimit
  | canonicalize
  | evolve
  | expectSolve
  | deallocHamil
  | deallocFcidump
deriving DecidableEq, Repr

/-- Python int() applied to an exact real value: truncation toward zero. -/
def pyInt (q : ℚ) : Int := if 0 ≤ q then ⌊q⌋ else ⌈q⌉

/-- The global-library calls made by FTDMRG.__init__ (lines 43-49) after the
assert su2 guard, in order: Random.rand_seed(0), init_memory with isize =
int(memory * 0.1) and dsize = int(memory * 0.9), set_mkl_num_threads. -/
def ctorEvents (memory : ℚ) (omp_threads : Nat) : List Event :=
  [Event.randSeed 0,
   Event.initMemory (pyInt (memory * (1 / 10))) (pyInt (memory * (9 / 10))),
   Event.setMklThreads omp_threads]

/-- FTDMRG.__init__ including the assert su2 guard on line 45. -/
def ftdmrgCtor (su2 : Bool) (memory : ℚ) (omp_threads : Nat) :
    Except String (List Event) :=
  if su2 then Except.ok (ctorEvents memory omp_threads)
  else Except.error "AssertionError: su2"

/-- The persistence-relevant calls of FTDMRG.generate_initial_mps
(lines 123-160), in order: set_thermal_limit (133), tag INIT (134),
save_mutable (135), load_mutable (146), fill_thermal_limit (148),
canonicalize (149), save_mutable (151), save_data (155). -/
def genInitialMpsEvents : List Event :=
  [Event.setThermalLimit, Event.setTag "INIT", Event.saveMutable,
   Event.loadMutable, Event.fillThermalLimit, Event.canonicalize,
   Event.saveMutable, Event.saveData]

/-- The persistence-relevant calls of FTDMRG.imaginary_time_evolution
(lines 162-214), in order: tag = INIT if not cont else FINAL (174);
load_mutable (175); load_data (179); load_mutable (180); when not cont:
tag = FINAL (184), save_mutable twice (185-186); te.solve (205);
save_data (208). -/
def iteEvents (cont : Bool) : List Event :=
  [Event.setTag (if cont then "FINAL" else "INIT"),
   Event.loadMutable, Event.loadData, Event.loadMutable] ++
  (if cont then [] else [Event.setTag "FINAL", Event.saveMutable, Event.saveMutable]) ++
  [Event.evolve, Event.saveData]

/-- The persistence-relevant calls of FTDMRG.get_one_pdm (lines 216-268):
tag FINAL (227), load_data (231), expect.solve (243). -/
def pdmEvents : List Event :=
  [Event.setTag "FINAL", Event.loadData, Event.expectSolve]

/-- The calls of FTDMRG.__del__ (lines 270-275): deallocate hamil if set,
deallocate fcidump if set, then release_memory — the explicit teardown. -/
def delEvents (hasHamil hasFcidump : Bool) : List Event :=
  (if hasHamil then [Event.deallocHamil] else []) ++
  (if hasFcidump then [Event.deallocFcidump] else []) ++
  [Event.releaseMemory]

/-- Whether an event is a memory-pool allocation. -/
def isInitMemory : Event → Bool
  | Event.initMemory _ _ => true
  | _ => false

/-- The global state of the block2 library that the traced calls mutate. -/
structure GlobalState where
  rngSeed : Option Nat
  memPool : Option (Int × Int)
  mklThreads : Option Nat
deriving DecidableEq, Repr

/-- Effect of one traced call on the library's global state. -/
def applyEvent (g : GlobalState) : Event → GlobalState
  | Event.randSeed n => { g with rngSeed := some n }
  | Event.initMemory i d => { g with memPool := some (i, d) }
  | Event.setMklThreads n => { g with mklThreads := some n }
  | Event.releaseMemory => { g with memPool := none }
  | _ => g

/-- Run a call trace over the library's global state. -/
def runEvents (g : GlobalState) (es : List Event) : GlobalState :=
  es.foldl applyEvent g

/-- The MPSInfo tag in force just before the event at index k: the tag set by
the last setTag call among the earlier events. -/
def tagAt (es : List Event) (k : Nat) : Option String :=
  (es.take k).foldl
    (fun acc e => match e with | Event.setTag t => some t | _ => acc) none

/-- The 1-RDM reorder step dm[ridx, :][:, ridx] of line 255: simultaneous
row and column permutation. -/
def reorderDM {n : Nat} (ridx : Equiv.Perm (Fin n)) (dm : Fin n → Fin n → ℚ) :
    Fin n → Fin n → ℚ :=
  fun i j => dm (ridx i) (ridx j)

/-- Value semantics of FTDMRG.get_one_pdm (lines 216-268) in the SU2
configuration.  pdmOf stands for the external spatial-1PDM contraction
(PDM1MPOQC / AncillaMPO / Expect.get_1pdm_spatial, lines 234-246), a function
of the Hamiltonian data as it is when the contraction runs — i.e. after the
method's own assignment self.hamil.mu = 0.0 on line 221.  The optional ridx
applies the reorder step of lines 254-255, and lines 265-266 return the two
identical spin channels dm / 2.  The mutated Hamiltonian data is returned
alongside, as the method leaves it on self. -/
def get_one_pdm {n : Nat} (pdmOf : HamilData → (Fin n → Fin n → ℚ))
    (hamil : HamilData) (ridx : Option (Equiv.Perm (Fin n))) :
    (Fin 2 → Fin n → Fin n → ℚ) × HamilData :=
  let hamil2 : HamilData := { hamil with mu := 0 }
  let dm := pdmOf hamil2
  let dm2 := match ridx with
    | some e => reorderDM e dm
    | none => dm
  (fun _ i j => dm2 i j / 2, hamil2)

/-- The mutation self.hamil.mu = mu performed by imaginary_time_evolution on
line 168 before evolving. -/
def evolveSetMu (hamil : HamilData) (mu : ℚ) : HamilData := { hamil with mu := mu }

/-- The loop counter matches the usual packed-triangle size formula. -/
theorem T_two (n : Nat) : T n * 2 = n * (n + 1) := by
  induction n with
  | zero => rfl
  | succ m ih =>
    have h2 : (m + 1) * (m + 1 + 1) = m * (m + 1) + (m + 1) * 2 := by ring
    simp only [T]
    omega

theorem length_ltPairs (n : Nat) : (ltPairs n).length = T n := by
  induction n with
  | zero => rfl
  | succ m ih => simp [ltPairs, T, ih]

theorem T_add_lt {i j m : Nat} (hj : j ≤ i) (him : i < m) : T i + j < T m := by
  induction m with
  | zero => omega
  | succ k ih =>
    simp only [T]
    rcases Nat.lt_succ_iff_lt_or_eq.mp him with hlt | heq
    · have := ih hlt
      omega
    · subst heq
      omega

theorem mem_ltPairs {n i j : Nat} : (i, j) ∈ ltPairs n ↔ i < n ∧ j ≤ i := by
  induction n with
  | zero => simp [ltPairs]
  | succ m ih =>
    simp only [ltPairs, List.mem_append, List.mem_map, List.mem_range, ih,
      Prod.mk.injEq]
    constructor
    · rintro (⟨h1, h2⟩ | ⟨a, ha, rfl, rfl⟩) <;> omega
    · rintro ⟨h1, h2⟩
      rcases Nat.lt_succ_iff_lt_or_eq.mp h1 with hlt | heq
      · exact Or.inl ⟨hlt, h2⟩
      · exact Or.inr ⟨j, by omega, heq.symm, rfl⟩

theorem get?_ltPairs {n i j : Nat} (hj : j ≤ i) (hi : i < n) :
    (ltPairs n).get? (ltIndex i j) = some (i, j) := by
  induction n with
  | zero => exact absurd hi (Nat.not_lt_zero i)
  | succ m ih =>
    rcases Nat.lt_succ_iff_lt_or_eq.mp hi with hlt | heq
    · rw [show ltPairs (m + 1)
          = ltPairs m ++ (List.range (m + 1)).map (fun j => (m, j)) from rfl]
      rw [List.get?_append]
      · exact ih hlt
      · rw [length_ltPairs]
        exact T_add_lt hj hlt
    · subst heq
      rw [show ltPairs (i + 1)
          = ltPairs i ++ (List.range (i + 1)).map (fun j => (i, j)) from rfl]
      rw [List.get?_append_right (by rw [length_ltPairs]; exact Nat.le_add_right _ _),
        length_ltPairs]
      have hsub : ltIndex i j - T i = j := by simp [ltIndex]
      rw [hsub, List.get?_map, List.get?_range (by omega)]
      rfl

theorem mapExcept_eq_map {α β : Type} {f : α → Except String β} {g : α → β} :
    ∀ l : List α, (∀ a ∈ l, f a = Except.ok (g a)) →
      mapExcept f l = Except.ok (l.map g) := by
  intro l
  induction l with
  | nil => intro _; rfl
  | cons x xs ih =>
    intro h
    have hx := h x (List.mem_cons_self x xs)
    have hxs := ih (fun a ha => h a (List.mem_cons_of_mem x ha))
    simp [mapExcept, hx, hxs]

theorem mapExcept_error_of_mem {α β : Type} {f : α → Except String β} {l : List α}
    {a : α} {e : String} (ha : a ∈ l) (hfa : f a = Except.error e) :
    ∃ msg, mapExcept f l = Except.error msg := by
  induction l with
  | nil => cases ha
  | cons x xs ih =>
    rcases List.mem_cons.mp ha with rfl | hmem
    · exact ⟨e, by simp [mapExcept, hfa]⟩
    · cases hfx : f x with
      | error e' => exact ⟨e', by simp [mapExcept, hfx]⟩
      | ok b =>
        obtain ⟨msg, hmsg⟩ := ih hmem
        exact ⟨msg, by simp [mapExcept, hfx, hmsg]⟩

theorem mapExcept_error_mem {α β : Type} {f : α → Except String β} :
    ∀ {l : List α} {msg : String}, mapExcept f l = Except.error msg →
      ∃ a ∈ l, f a = Except.error msg := by
  intro l
  induction l with
  | nil => intro msg h; simp [mapExcept] at h
  | cons x xs ih =>
    intro msg h
    cases hfx : f x with
    | error e' =>
      simp only [mapExcept, hfx] at h
      cases h
      exact ⟨x, List.mem_cons_self x xs, hfx⟩
    | ok b =>
      simp only [mapExcept, hfx] at h
      cases hxs : mapExcept f xs with
      | error e2 =>
        simp only [hxs] at h
        cases h
        obtain ⟨a, ha, hfa⟩ := ih hxs
        exact ⟨a, List.mem_cons_of_mem x ha, hfa⟩
      | ok ys =>
        simp only [hxs] at h
        cases h

/-- A concrete parsed integral file used to instantiate theorems. -/
def testFile : FCIDUMPData :=
  { n_sites := 1, n_elec := 2, twos := 0, isym := 1, orb_sym := [1], e_core := 0,
    mh1e := [1], mg2e := [1] }

/-- An asymmetric 2 x 2 matrix used to exercise the symmetry assertion. -/
def h1eAsym : Nat → Nat → ℚ := fun i j => if i = 0 ∧ j = 1 then 1 else 0

/-- A symmetric 2 x 2 matrix with sub-tolerance off-diagonal entries. -/
def h1eSym : Nat → Nat → ℚ := fun i j => if i = j then (i + 1 : ℚ) else 1 / 10 ^ 20

/-- Claim C6: for every n x n matrix dm and every permutation ridx of
0..n-1, applying the 1-RDM reorder step with ridx and then the reorder step
with the inverse permutation of ridx returns exactly the original matrix. -/
theorem reorder_roundtrip {n : Nat} (ridx : Equiv.Perm (Fin n))
    (dm : Fin n → Fin n → ℚ) :
    reorderDM ridx.symm (reorderDM ridx dm) = dm := by
  funext i j
  simp [reorderDM]

/-- Claim C8: get_one_pdm assigns hamil.mu = 0.0 before the density-matrix
contraction, so whatever the external contraction computes from the
Hamiltonian data, the extracted 1-RDM does not depend on the chemical
potential that a preceding imaginary_time_evolution call set, and the
Hamiltonian is left with mu = 0. -/
theorem get_one_pdm_mu_independent {n : Nat}
    (pdmOf : HamilData → (Fin n → Fin n → ℚ)) (hamil : HamilData)
    (mu1 mu2 : ℚ) (ridx : Option (Equiv.Perm (Fin n))) :
    get_one_pdm pdmOf (evolveSetMu hamil mu1) ridx
      = get_one_pdm pdmOf (evolveSetMu hamil mu2) ridx ∧
    (get_one_pdm pdmOf (evolveSetMu hamil mu1) ridx).2.mu = 0 := by
  constructor <;> rfl

/-- Claim C10: FTDMRG.__init__ seeds the random number generator with the
fixed constant 0, so starting from any two ambient library states, two
constructions with identical arguments leave identical global state — in
particular the random state — with no dependence on an ambient seed. -/
theorem ctor_rand_seed_deterministic (memory : ℚ) (omp_threads : Nat)
    (g1 g2 : GlobalState) :
    Event.randSeed 0 ∈ ctorEvents memory omp_threads ∧
    (runEvents g1 (ctorEvents memory omp_threads)).rngSeed = some 0 ∧
    runEvents g1 (ctorEvents memory omp_threads)
      = runEvents g2 (ctorEvents memory omp_threads) := by
  exact ⟨List.mem_cons_self _ _, rfl, rfl⟩

/-- Claim C7: for every configured total memory budget, the constructor makes
exactly one pool allocation, with index segment int(memory * 0.1) and data
segment int(memory * 0.9), and no modeled driver operation releases the pool
except the explicit teardown __del__, which always does. -/
theorem memory_pool_lifecycle (memory : ℚ) (omp_threads : Nat) (g : GlobalState)
    (cont hasHamil hasFcidump : Bool) :
    (ctorEvents memory omp_threads).countP isInitMemory = 1 ∧
    Event.initMemory (pyInt (memory * (1 / 10))) (pyInt (memory * (9 / 10)))
      ∈ ctorEvents memory omp_threads ∧
    (runEvents g (ctorEvents memory omp_threads)).memPool
      = some (pyInt (memory * (1 / 10)), pyInt (memory * (9 / 10))) ∧
    Event.releaseMemory ∉ ctorEvents memory omp_threads ∧
    Event.releaseMemory ∉ genInitialMpsEvents ∧
    Event.releaseMemory ∉ iteEvents cont ∧
    Event.releaseMemory ∉ pdmEvents ∧
    Event.releaseMemory ∈ delEvents hasHamil hasFcidump := by
  refine ⟨rfl, List.Mem.tail _ (List.Mem.head _), rfl, ?_, ?_, ?_, ?_, ?_⟩
  · simp [ctorEvents]
  · simp [genInitialMpsEvents]
  · cases cont <;> simp [iteEvents]
  · simp [pdmEvents]
  · cases hasHamil <;> cases hasFcidump <;> simp [delEvents]

/-- Claim C5 counterexample: in the cont=False evolution trace, the single
re-tag to FINAL lies strictly before the evolve call and no re-tag to FINAL
occurs at or after it — the state is re-tagged FINAL before evolution, not
once evolution completes. -/
theorem ite_retag_before_evolve_cex :
    ((iteEvents false).take ((iteEvents false).indexOf Event.evolve)).count
        (Event.setTag "FINAL") = 1 ∧
    ((iteEvents false).drop ((iteEvents false).indexOf Event.evolve)).count
        (Event.setTag "FINAL") = 0 := by
  constructor <;> rfl

/-- Claim C5 (amended): with cont=True the evolution loads the state stored
under FINAL and performs no save before evolving; with cont=False it loads
the state stored under INIT, then immediately re-tags it FINAL and re-saves
it before evolving; in both cases the evolved state data is persisted under
FINAL after evolution completes. -/
theorem ite_continuation_tags :
    tagAt (iteEvents true) ((iteEvents true).indexOf Event.loadData)
        = some "FINAL" ∧
    ((iteEvents true).take ((iteEvents true).indexOf Event.evolve)).count
        Event.saveMutable = 0 ∧
    tagAt (iteEvents false) ((iteEvents false).indexOf Event.loadData)
        = some "INIT" ∧
    ((iteEvents false).take ((iteEvents false).indexOf Event.evolve)).count
        (Event.setTag "FINAL") = 1 ∧
    0 < ((iteEvents false).take ((iteEvents false).indexOf Event.evolve)).count
        Event.saveMutable ∧
    (iteEvents false).indexOf Event.evolve < (iteEvents false).indexOf Event.saveData ∧
    tagAt (iteEvents false) ((iteEvents false).indexOf Event.saveData)
        = some "FINAL" ∧
    (iteEvents true).indexOf Event.evolve < (iteEvents true).indexOf Event.saveData ∧
    tagAt (iteEvents true) ((iteEvents true).indexOf Event.saveData)
        = some "FINAL" := by
  decide

theorem packH1e_ok (n_sites : Nat) (h1e : Nat → Nat → ℚ) (tol : ℚ)
    (hsym : ∀ i j, i < n_sites → j < n_sites → |h1e i j - h1e j i| < tol) :
    packH1e n_sites h1e tol
      = Except.ok ((ltPairs n_sites).map (fun p => h1e p.1 p.2)) := by
  apply mapExcept_eq_map
  intro a ha
  obtain ⟨i, j⟩ := a
  have hm := mem_ltPairs.mp ha
  have hlt := hsym i j hm.1 (lt_of_le_of_lt hm.2 hm.1)
  simp [packStep, hlt]

/-- Claim C1 counterexample: the zero matrix is perfectly symmetric, so no
index pair violates symmetry and the packing loop passes, yet with an
unsupported point group the call still fails — the success half of the claim
needs the point-group (and fresh-driver) conditions. -/
theorem init_symmetry_gate_cex :
    packH1e 1 (fun _ _ => (0 : ℚ)) (1 / 10 ^ 13) = Except.ok [0] ∧
    (init_hamiltonian id "c2v" 1 0 1 [1] 0 (fun _ _ => (0 : ℚ)) [] (1 / 10 ^ 13)
        freshDriver).1 = Except.error pgAssertMsg := by
  have hpg : ¬("c2v" = "d2h" ∨ "c2v" = "c1") := by simp
  constructor
  · norm_num [packH1e, ltPairs, mapExcept, packStep]
  · norm_num [init_hamiltonian, freshDriver, packH1e, ltPairs, mapExcept,
      packStep, hpg]

/-- Claim C1 (amended): for an in-memory initialization on a fresh driver
with a supported point group (d2h or c1): if some pair of indices below
n_sites violates symmetry of h1e at least by tol, the call raises the
symmetry assertion error and the integral store is left constructed but not
populated; if no pair violates it, the call succeeds. -/
theorem init_symmetry_gate (swap : Nat → Nat) (pg : String)
    (n_sites twos isym : Nat) (orb_sym : List Nat) (e_core : ℚ)
    (h1e : Nat → Nat → ℚ) (g2e : List ℚ) (tol : ℚ) (s : DriverState)
    (hfresh : s.fcidump = FcidumpState.pyNone)
    (hpg : pg = "d2h" ∨ pg = "c1") :
    ((∃ i j, i < n_sites ∧ j < n_sites ∧ tol ≤ |h1e i j - h1e j i|) →
      (init_hamiltonian swap pg n_sites twos isym orb_sym e_core h1e g2e tol s).1
          = Except.error symAssertMsg ∧
      (init_hamiltonian swap pg n_sites twos isym orb_sym e_core h1e g2e tol s).2.fcidump
          = FcidumpState.fresh) ∧
    ((∀ i j, i < n_sites → j < n_sites → |h1e i j - h1e j i| < tol) →
      (init_hamiltonian swap pg n_sites twos isym orb_sym e_core h1e g2e tol s).1
          = Except.ok ()) := by
  constructor
  · rintro ⟨i, j, hi, hj, habs⟩
    have hpair : ∃ p ∈ ltPairs n_sites,
        packStep h1e tol p = Except.error symAssertMsg := by
      rcases le_total j i with hle | hle
      · exact ⟨(i, j), mem_ltPairs.mpr ⟨hi, hle⟩, by simp [packStep, not_lt.mpr habs]⟩
      · have habs2 : tol ≤ |h1e j i - h1e i j| := by rwa [abs_sub_comm]
        exact ⟨(j, i), mem_ltPairs.mpr ⟨hj, hle⟩, by simp [packStep, not_lt.mpr habs2]⟩
    obtain ⟨p, hp, hperr⟩ := hpair
    obtain ⟨msg, hmsg⟩ := mapExcept_error_of_mem hp hperr
    obtain ⟨q, _, hqerr⟩ := mapExcept_error_mem hmsg
    have hmsgeq : msg = symAssertMsg := by
      by_cases hc : |h1e q.1 q.2 - h1e q.2 q.1| < tol
      · simp [packStep, hc] at hqerr
      · simp [packStep, hc] at hqerr
        exact hqerr.symm
    rw [hmsgeq] at hmsg
    have hpk : packH1e n_sites h1e tol = Except.error symAssertMsg := hmsg
    constructor <;> simp [init_hamiltonian, hfresh, hpk]
  · intro hsym
    simp [init_hamiltonian, hfresh, packH1e_ok n_sites h1e tol hsym, hpg]

/-- Claim C1 witness: on the concrete asymmetric matrix h1eAsym the call
leaves the integral store constructed but unpopulated. -/
theorem init_symmetry_gate_witness :
    (init_hamiltonian id "d2h" 2 0 1 [1, 1] 0 h1eAsym [] (1 / 10 ^ 13)
        freshDriver).2.fcidump = FcidumpState.fresh :=
  ((init_symmetry_gate id "d2h" 2 0 1 [1, 1] 0 h1eAsym [] (1 / 10 ^ 13)
      freshDriver rfl (Or.inl rfl)).1
    ⟨0, 1, by norm_num, by norm_num, by norm_num [h1eAsym]⟩).2

/-- Claim C2: for every h1e accepted by the symmetry assertions on a fresh
driver, the packed lower-triangular one-electron array handed to the
integral store holds, at the loop position of (i, j), the value h1e i j when
its magnitude is at least tol and 0.0 when it is below tol; the flattened
two-electron array is likewise zeroed exactly at its sub-tolerance
positions.  This holds for every pg: the store is populated before the
point-group assertion. -/
theorem init_stores_zeroed (swap : Nat → Nat) (pg : String)
    (n_sites twos isym : Nat) (orb_sym : List Nat) (e_core : ℚ)
    (h1e : Nat → Nat → ℚ) (g2e : List ℚ) (tol : ℚ) (s : DriverState)
    (hfresh : s.fcidump = FcidumpState.pyNone)
    (hsym : ∀ i j, i < n_sites → j < n_sites → |h1e i j - h1e j i| < tol) :
    ∃ d, storedFcidump
        (init_hamiltonian swap pg n_sites twos isym orb_sym e_core h1e g2e tol s).2
        = some d ∧
      (∀ i j, j ≤ i → i < n_sites →
        d.mh1e.get? (ltIndex i j)
          = some (if |h1e i j| < tol then 0 else h1e i j)) ∧
      (∀ p : Nat, d.mg2e.get? p
          = (g2e.get? p).map (fun x => if |x| < tol then 0 else x)) := by
  refine ⟨builtFcidump n_sites twos isym e_core
      (zeroSmall tol ((ltPairs n_sites).map (fun p => h1e p.1 p.2)))
      (zeroSmall tol g2e), ?_, ?_, ?_⟩
  · simp [init_hamiltonian, hfresh, packH1e_ok n_sites h1e tol hsym, storedFcidump]
  · intro i j hj hi
    simp only [builtFcidump, zeroSmall]
    rw [List.get?_map, List.get?_map, get?_ltPairs hj hi]
    rfl
  · intro p
    simp only [builtFcidump, zeroSmall]
    rw [List.get?_map]

/-- Claim C2 witness: on the concrete symmetric matrix h1eSym with one
diagonal pair above tolerance and off-diagonal entries below it, the stored
arrays have the off-diagonal one-electron entry and the small two-electron
entry zeroed and the large entries kept. -/
theorem init_stores_zeroed_witness :
    ∃ d, storedFcidump
        (init_hamiltonian id "d2h" 2 0 1 [1, 1] 0 h1eSym [3, 1 / 10 ^ 20]
          (1 / 10 ^ 13) freshDriver).2 = some d ∧
      d.mh1e.get? (ltIndex 1 0) = some 0 ∧
      d.mh1e.get? (ltIndex 1 1) = some 2 ∧
      d.mg2e.get? 0 = some 3 ∧
      d.mg2e.get? 1 = some 0 := by
  have habs : |(1 : ℚ) / 10 ^ 20| < 1 / 10 ^ 13 := by
    rw [abs_of_pos (by norm_num)]
    norm_num
  obtain ⟨d, hd, hm, hg⟩ := init_stores_zeroed id "d2h" 2 0 1 [1, 1] 0 h1eSym
    [3, 1 / 10 ^ 20] (1 / 10 ^ 13) freshDriver rfl
    (by intro i j hi hj; interval_cases i <;> interval_cases j <;> norm_num [h1eSym])
  refine ⟨d, hd, ?_, ?_, ?_, ?_⟩
  · rw [hm 1 0 (by norm_num) (by norm_num)]
    have hv : h1eSym 1 0 = 1 / 10 ^ 20 := rfl
    rw [hv, if_pos habs]
  · rw [hm 1 1 (by norm_num) (by norm_num)]
    norm_num [h1eSym]
  · rw [hg 0]
    norm_num
  · rw [hg 1]
    have hv : ([3, 1 / 10 ^ 20] : List ℚ).get? 1 = some (1 / 10 ^ 20) := rfl
    rw [hv, Option.map_some', if_pos habs]

/-- Claim C3 counterexample: with the unsupported point group cs the
in-memory initialization fails as claimed, but the driver state after the
call already holds the constructed Hamiltonian — the rejection happens after
HamiltonianQC construction, not before it. -/
theorem init_pg_after_hamil_cex :
    (init_hamiltonian id "cs" 1 0 1 [1] 0 (fun _ _ => (0 : ℚ)) [] (1 / 10 ^ 13)
        freshDriver).1 = Except.error pgAssertMsg ∧
    (init_hamiltonian id "cs" 1 0 1 [1] 0 (fun _ _ => (0 : ℚ)) [] (1 / 10 ^ 13)
        freshDriver).2.hamil = some (builtHamil id 1 0 1 [1]) := by
  have hpg : ¬("cs" = "d2h" ∨ "cs" = "c1") := by simp
  constructor
  · norm_num [init_hamiltonian, freshDriver, packH1e, ltPairs, mapExcept,
      packStep, hpg]
  · norm_num [init_hamiltonian, freshDriver, packH1e, ltPairs, mapExcept, packStep]

/-- Claim C3 (amended): on a fresh driver (with, for the in-memory path, an
h1e passing the symmetry assertions), every point-group string other than
d2h or c1 makes Hamiltonian initialization fail with the point-group
assertion — but only after the Hamiltonian object has been constructed and
stored on the driver; for d2h or c1 no error is raised.  Both the in-memory
and the file-based initialization behave this way. -/
theorem init_pg_check_after_hamil (swap : Nat → Nat) (pg : String)
    (n_sites twos isym : Nat) (orb_sym : List Nat) (e_core : ℚ)
    (h1e : Nat → Nat → ℚ) (g2e : List ℚ) (tol : ℚ) (file : FCIDUMPData)
    (s : DriverState) (hfresh : s.fcidump = FcidumpState.pyNone)
    (hsym : ∀ i j, i < n_sites → j < n_sites → |h1e i j - h1e j i| < tol) :
    (pg ≠ "d2h" → pg ≠ "c1" →
      (init_hamiltonian swap pg n_sites twos isym orb_sym e_core h1e g2e tol s).1
          = Except.error pgAssertMsg ∧
      (init_hamiltonian swap pg n_sites twos isym orb_sym e_core h1e g2e tol s).2.hamil
          = some (builtHamil swap n_sites twos isym orb_sym) ∧
      (init_hamiltonian_fcidump swap pg file s).1 = Except.error pgAssertMsg ∧
      (init_hamiltonian_fcidump swap pg file s).2.hamil
          = some (builtHamil swap file.n_sites file.twos file.isym file.orb_sym)) ∧
    ((pg = "d2h" ∨ pg = "c1") →
      (init_hamiltonian swap pg n_sites twos isym orb_sym e_core h1e g2e tol s).1
          = Except.ok () ∧
      (init_hamiltonian_fcidump swap pg file s).1 = Except.ok ()) := by
  have hpk := packH1e_ok n_sites h1e tol hsym
  constructor
  · intro h1 h2
    have hpg : ¬(pg = "d2h" ∨ pg = "c1") := by simp [h1, h2]
    simp [init_hamiltonian, init_hamiltonian_fcidump, hfresh, hpk, hpg]
  · intro hpg
    simp [init_hamiltonian, init_hamiltonian_fcidump, hfresh, hpk, hpg]

/-- Claim C3 witness: with the unsupported point group c2v on a fresh driver
the constructed Hamiltonian is on the driver when the call fails. -/
theorem init_pg_check_after_hamil_witness :
    (init_hamiltonian id "c2v" 1 0 1 [1] 0 (fun _ _ => (0 : ℚ)) [] (1 / 10 ^ 13)
        freshDriver).2.hamil = some (builtHamil id 1 0 1 [1]) :=
  ((init_pg_check_after_hamil id "c2v" 1 0 1 [1] 0 (fun _ _ => (0 : ℚ)) []
      (1 / 10 ^ 13) testFile freshDriver rfl (fun i j _ _ => by norm_num)).1
    (by decide) (by decide)).2.1

/-- Modelled from the spec: the spec describes the in-memory initialization
as initialize(n_sites, n_elec, twos, isym, e_core, h1e, g2e), taking a
caller-supplied electron count n_elec, and the target quantum number as the
triple (n_elec, twos, isym).  The source function has no such parameter;
this definition follows the spec's words for comparison with the code's
target. -/
def specTarget (n_elec twos isym : Nat) : QN :=
  { n := n_elec, twos := twos, pg := isym }

/-- Claim C4 counterexample: for n_sites = 2 the code builds a target with
particle number 4 = n_sites * 2; no caller-supplied electron count enters —
the target the spec describes for a caller choosing n_elec = 2 differs. -/
theorem init_target_cex :
    (init_hamiltonian id "d2h" 2 0 1 [1, 1] 0 (fun _ _ => (0 : ℚ)) []
        (1 / 10 ^ 13) freshDriver).2.hamil = some (builtHamil id 2 0 1 [1, 1]) ∧
    (builtHamil id 2 0 1 [1, 1]).target = { n := 4, twos := 0, pg := 1 } ∧
    specTarget 2 0 1 ≠ { n := 4, twos := 0, pg := 1 } := by
  refine ⟨?_, rfl, by decide⟩
  norm_num [init_hamiltonian, freshDriver, packH1e, ltPairs, mapExcept, packStep]

/-- Claim C4 (amended): the in-memory initialization takes no electron-count
argument; it fixes n_elec = n_sites * 2 (line 76), and every successful call
builds the target quantum number (n_sites * 2, twos, swap_d2h isym) and
records n_elec = n_sites * 2 in the integral store. -/
theorem init_target_fixed (swap : Nat → Nat) (pg : String)
    (n_sites twos isym : Nat) (orb_sym : List Nat) (e_core : ℚ)
    (h1e : Nat → Nat → ℚ) (g2e : List ℚ) (tol : ℚ) (s : DriverState)
    (hok : (init_hamiltonian swap pg n_sites twos isym orb_sym e_core h1e g2e tol s).1
        = Except.ok ()) :
    ∃ h, (init_hamiltonian swap pg n_sites twos isym orb_sym e_core h1e g2e tol s).2.hamil
        = some h ∧
      h.target = { n := n_sites * 2, twos := twos, pg := swap isym } ∧
      ∃ d, storedFcidump
          (init_hamiltonian swap pg n_sites twos isym orb_sym e_core h1e g2e tol s).2
          = some d ∧ d.n_elec = n_sites * 2 := by
  cases hs : s.fcidump with
  | pyNone =>
    cases hp : packH1e n_sites h1e tol with
    | error e => simp [init_hamiltonian, hs, hp] at hok
    | ok mh1e0 =>
      refine ⟨builtHamil swap n_sites twos isym orb_sym, ?_, rfl,
        builtFcidump n_sites twos isym e_core (zeroSmall tol mh1e0)
          (zeroSmall tol g2e), ?_, rfl⟩
      · simp [init_hamiltonian, hs, hp]
      · simp [init_hamiltonian, hs, hp, storedFcidump]
  | fresh => simp [init_hamiltonian, hs] at hok
  | populated d => simp [init_hamiltonian, hs] at hok

/-- Claim C4 witness: a concrete successful call on one site builds the
target (2, 0, 1) = (n_sites * 2, twos, swap_d2h isym). -/
theorem init_target_fixed_witness :
    ∃ h, (init_hamiltonian id "d2h" 1 0 1 [1] 0 (fun _ _ => (0 : ℚ)) []
        (1 / 10 ^ 13) freshDriver).2.hamil = some h ∧
      h.target = { n := 1 * 2, twos := 0, pg := id 1 } ∧
      ∃ d, storedFcidump
          (init_hamiltonian id "d2h" 1 0 1 [1] 0 (fun _ _ => (0 : ℚ)) []
            (1 / 10 ^ 13) freshDriver).2 = some d ∧ d.n_elec = 1 * 2 :=
  init_target_fixed id "d2h" 1 0 1 [1] 0 (fun _ _ => (0 : ℚ)) [] (1 / 10 ^ 13)
    freshDriver
    (by norm_num [init_hamiltonian, freshDriver, packH1e, ltPairs, mapExcept,
      packStep])

theorem init_ok_populated (swap : Nat → Nat) (pg : String)
    (n_sites twos isym : Nat) (orb_sym : List Nat) (e_core : ℚ)
    (h1e : Nat → Nat → ℚ) (g2e : List ℚ) (tol : ℚ) (s : DriverState)
    (hok : (init_hamiltonian swap pg n_sites twos isym orb_sym e_core h1e g2e tol s).1
        = Except.ok ()) :
    ∃ d, (init_hamiltonian swap pg n_sites twos isym orb_sym e_core h1e g2e tol s).2.fcidump
        = FcidumpState.populated d := by
  cases hs : s.fcidump with
  | pyNone =>
    cases hp : packH1e n_sites h1e tol with
    | error e => simp [init_hamiltonian, hs, hp] at hok
    | ok mh1e0 =>
      exact ⟨builtFcidump n_sites twos isym e_core (zeroSmall tol mh1e0)
        (zeroSmall tol g2e), by simp [init_hamiltonian, hs, hp]⟩
  | fresh => simp [init_hamiltonian, hs] at hok
  | populated d => simp [init_hamiltonian, hs] at hok

theorem init_fcidump_ok_populated (swap : Nat → Nat) (pg : String)
    (file : FCIDUMPData) (s : DriverState)
    (hok : (init_hamiltonian_fcidump swap pg file s).1 = Except.ok ()) :
    (init_hamiltonian_fcidump swap pg file s).2.fcidump
        = FcidumpState.populated file := by
  cases hs : s.fcidump with
  | pyNone => simp [init_hamiltonian_fcidump, hs]
  | fresh => simp [init_hamiltonian_fcidump, hs] at hok
  | populated d => simp [init_hamiltonian_fcidump, hs] at hok

theorem init_on_populated (swap : Nat → Nat) (pg : String)
    (n_sites twos isym : Nat) (orb_sym : List Nat) (e_core : ℚ)
    (h1e : Nat → Nat → ℚ) (g2e : List ℚ) (tol : ℚ) (file : FCIDUMPData)
    (u : DriverState) (d : FCIDUMPData)
    (hu : u.fcidump = FcidumpState.populated d) :
    init_hamiltonian swap pg n_sites twos isym orb_sym e_core h1e g2e tol u
        = (Except.error fcidumpAssertMsg, u) ∧
    init_hamiltonian_fcidump swap pg file u = (Except.error fcidumpAssertMsg, u) := by
  constructor <;> simp [init_hamiltonian, init_hamiltonian_fcidump, hu]

/-- Claim C9: Hamiltonian initialization succeeds at most once per driver:
after a successful initialization of either kind, a second initialization
call of either kind fails the assert self.fcidump is None immediately,
returning the driver state exactly as the first call left it (the existing
integral store untouched). -/
theorem init_at_most_once (swap : Nat → Nat) (pg : String)
    (n_sites twos isym : Nat) (orb_sym : List Nat) (e_core : ℚ)
    (h1e : Nat → Nat → ℚ) (g2e : List ℚ) (tol : ℚ) (s t : DriverState)
    (file : FCIDUMPData) (swap2 : Nat → Nat) (pg2 : String)
    (ns2 tw2 is2 : Nat) (orb2 : List Nat) (ec2 : ℚ) (h2e : Nat → Nat → ℚ)
    (g2e2 : List ℚ) (tol2 : ℚ) (file2 : FCIDUMPData)
    (hokA : (init_hamiltonian swap pg n_sites twos isym orb_sym e_core h1e g2e tol s).1
        = Except.ok ())
    (hokC : (init_hamiltonian_fcidump swap pg file t).1 = Except.ok ()) :
    init_hamiltonian swap2 pg2 ns2 tw2 is2 orb2 ec2 h2e g2e2 tol2
        (init_hamiltonian swap pg n_sites twos isym orb_sym e_core h1e g2e tol s).2
      = (Except.error fcidumpAssertMsg,
         (init_hamiltonian swap pg n_sites twos isym orb_sym e_core h1e g2e tol s).2) ∧
    init_hamiltonian_fcidump swap2 pg2 file2
        (init_hamiltonian swap pg n_sites twos isym orb_sym e_core h1e g2e tol s).2
      = (Except.error fcidumpAssertMsg,
         (init_hamiltonian swap pg n_sites twos isym orb_sym e_core h1e g2e tol s).2) ∧
    init_hamiltonian swap2 pg2 ns2 tw2 is2 orb2 ec2 h2e g2e2 tol2
        (init_hamiltonian_fcidump swap pg file t).2
      = (Except.error fcidumpAssertMsg, (init_hamiltonian_fcidump swap pg file t).2) ∧
    init_hamiltonian_fcidump swap2 pg2 file2 (init_hamiltonian_fcidump swap pg file t).2
      = (Except.error fcidumpAssertMsg, (init_hamiltonian_fcidump swap pg file t).2) := by
  obtain ⟨d, hd⟩ := init_ok_populated swap pg n_sites twos isym orb_sym e_core
    h1e g2e tol s hokA
  have hdt := init_fcidump_ok_populated swap pg file t hokC
  obtain ⟨hA1, hA2⟩ := init_on_populated swap2 pg2 ns2 tw2 is2 orb2 ec2 h2e g2e2
    tol2 file2 _ d hd
  obtain ⟨hC1, hC2⟩ := init_on_populated swap2 pg2 ns2 tw2 is2 orb2 ec2 h2e g2e2
    tol2 file2 _ file hdt
  exact ⟨hA1, hA2, hC1, hC2⟩

/-- Claim C9 witness: after a concrete successful in-memory initialization
and a concrete successful file-based one, repeated initialization calls of
both kinds fail and preserve the state. -/
theorem init_at_most_once_witness :
    init_hamiltonian id "c1" 1 0 1 [1] 0 (fun _ _ => (0 : ℚ)) [] (1 / 10 ^ 13)
        (init_hamiltonian id "d2h" 1 0 1 [1] 0 (fun _ _ => (0 : ℚ)) []
          (1 / 10 ^ 13) freshDriver).2
      = (Except.error fcidumpAssertMsg,
         (init_hamiltonian id "d2h" 1 0 1 [1] 0 (fun _ _ => (0 : ℚ)) []
           (1 / 10 ^ 13) freshDriver).2) ∧
    init_hamiltonian_fcidump id "c1" testFile
        (init_hamiltonian_fcidump id "d2h" testFile freshDriver).2
      = (Except.error fcidumpAssertMsg,
         (init_hamiltonian_fcidump id "d2h" testFile freshDriver).2) := by
  have h := init_at_most_once id "d2h" 1 0 1 [1] 0 (fun _ _ => (0 : ℚ)) []
    (1 / 10 ^ 13) freshDriver freshDriver testFile id "c1" 1 0 1 [1] 0
    (fun _ _ => (0 : ℚ)) [] (1 / 10 ^ 13) testFile
    (by norm_num [init_hamiltonian, freshDriver, packH1e, ltPairs, mapExcept,
      packStep])
    (by norm_num [init_hamiltonian_fcidump, freshDriver])
  exact ⟨h.1, h.2.2.2⟩

/-- Claim C6 witness: the round trip evaluated at a concrete transposition
and a concrete 2 x 2 matrix. -/
theorem reorder_roundtrip_witness :
    reorderDM (Equiv.swap (0 : Fin 2) 1).symm
      (reorderDM (Equiv.swap (0 : Fin 2) 1) (fun (i j : Fin 2) => (i : ℚ) + 2 * (j : ℚ)))
    = fun (i j : Fin 2) => (i : ℚ) + 2 * (j : ℚ) :=
  reorder_roundtrip (Equiv.swap (0 : Fin 2) 1) (fun (i j : Fin 2) => (i : ℚ) + 2 * (j : ℚ))

/-- Claim C7 witness: concrete instantiation at a 10^9 budget. -/
theorem memory_pool_lifecycle_witness :
    Event.initMemory (pyInt ((10 ^ 9 : ℚ) * (1 / 10))) (pyInt ((10 ^ 9 : ℚ) * (9 / 10)))
      ∈ ctorEvents (10 ^ 9 : ℚ) 2 ∧
    Event.releaseMemory ∉ ctorEvents (10 ^ 9 : ℚ) 2 ∧
    Event.releaseMemory ∈ delEvents true true :=
  ⟨(memory_pool_lifecycle (10 ^ 9 : ℚ) 2 ⟨none, none, none⟩ false true true).2.1,
   (memory_pool_lifecycle (10 ^ 9 : ℚ) 2 ⟨none, none, none⟩ false true true).2.2.2.1,
   (memory_pool_lifecycle (10 ^ 9 : ℚ) 2 ⟨none, none, none⟩ false true true).2.2.2.2.2.2.2⟩

/-- Claim C8 witness: concrete instantiation with a contraction reading the
chemical potential and two different preceding evolution potentials. -/
theorem get_one_pdm_mu_independent_witness :
    get_one_pdm (n := 1) (fun h _ _ => h.mu) (evolveSetMu (builtHamil id 1 0 1 [1]) 1)
        none
      = get_one_pdm (n := 1) (fun h _ _ => h.mu)
        (evolveSetMu (builtHamil id 1 0 1 [1]) 2) none :=
  (get_one_pdm_mu_independent (n := 1) (fun h _ _ => h.mu)
    (builtHamil id 1 0 1 [1]) 1 2 none).1

/-- Claim C10 witness: from an ambient state with a nonzero seed, the
constructor trace leaves the seed at 0. -/
theorem ctor_rand_seed_deterministic_witness :
    (runEvents ⟨some 42, none, none⟩ (ctorEvents (10 ^ 9 : ℚ) 2)).rngSeed = some 0 :=
  (ctor_rand_seed_deterministic (10 ^ 9 : ℚ) 2 ⟨some 42, none, none⟩
    ⟨none, none, none⟩).2.1

end Ftdmrg
